import Mathlib

/-!
Verification of the PDF-ledger extraction and normalization core of
`src/app.py` (ARC fisheries dashboard).

The embedded parts are the pure row pipeline:

* `extract_data` (app.py lines 40-105): per-row cleaning, junk skipping,
  fixed relative-offset field extraction with an amount fallback;
* `clean_dataframe` (app.py lines 107-132): amount normalization
  (`clean_amt`), date forward-fill, date parsing/re-rendering,
  positive-amount filtering;
* the Firestore document key of `save_to_firestore` (app.py lines 140-152).

Streamlit UI, pdfplumber page iteration, the progress bar and the Firestore
client are I/O plumbing around this core and are not modelled; a document is
represented by the list of its table rows in page order (pages with no table
contribute no rows).  Python floats are modelled as exact rationals: the
properties at stake (zero on failure, non-negativity, strict positivity,
integer truncation) are exact and unaffected by binary rounding.  Regex
character class `\d` is modelled as the ASCII digits.
-/

namespace ArcApp

/-- Python `str.strip()` on the character list: drop leading and trailing
whitespace. -/
def stripChars (l : List Char) : List Char :=
  ((l.dropWhile Char.isWhitespace).reverse.dropWhile Char.isWhitespace).reverse

/-- Cleaning of one raw pdfplumber cell (app.py line 59):
`str(cell).strip().replace('\n', ' ') if cell is not None else ""`; the
single-character replace acts character-wise. -/
def cleanCell : Option String → String
  | none => ""
  | some s =>
    String.mk ((stripChars s.toList).map (fun ch => if ch = '\n' then ' ' else ch))

/-- Cleaning of a whole raw table row (app.py line 59). -/
def cleanRow (row : List (Option String)) : List String :=
  row.map cleanCell

/-- Junk test (app.py line 62): `not any(clean_row) or "Total" in str(clean_row)`.
In Python, `any` over strings is true iff some cell is non-empty, and
`"Total" in str(clean_row)` is a substring test over the list repr; since the
marker is purely alphabetic and the repr separators/escapes are not, it holds
exactly when some cell contains `"Total"` as a substring. -/
def skipRow (row : List String) : Bool :=
  row.all (fun s => s == "") || row.any (fun s => decide ("Total".toList <:+: s.toList))

/-- Test from `amount_check_pattern = re.compile(r'[\d]')` (app.py line 45):
`search` succeeds iff the string contains at least one digit character. -/
def hasDigitChar (s : String) : Bool :=
  s.toList.any Char.isDigit

/-- Python negative indexing `row[-k]` for a list of length `≥ k ≥ 1`.
Out-of-range access cannot occur on the guarded paths; the default `""` makes
the function total. -/
def cellFromEnd (row : List String) (k : Nat) : String :=
  (row[row.length - k]?).getD ""

/-- Amount selection with fallback (app.py lines 72-79): take `clean_row[-4]`;
if it has no digit, take `clean_row[-5]` when the row has at least 5 cells and
that cell has a digit, else take `clean_row[-3]` when that cell has a digit,
else keep `clean_row[-4]` as-is. -/
def selectAmount (row : List String) : String :=
  let a4 := cellFromEnd row 4
  if hasDigitChar a4 then a4
  else if 5 ≤ row.length ∧ hasDigitChar (cellFromEnd row 5) = true then
    cellFromEnd row 5
  else if hasDigitChar (cellFromEnd row 3) then
    cellFromEnd row 3
  else a4

/-- One record appended to `extracted_data` (app.py lines 98-103). -/
structure RawLedgerRow where
  vehicleNo : String
  voucherNo : String
  date : String
  amountRs : String
  deriving DecidableEq, Repr

/-- Processing of one raw table row by `extract_data` (app.py lines 57-103):
clean the cells, skip junk rows and rows with fewer than 8 columns, pull the
fields at the fixed relative offsets (`final_date = date_raw` verbatim — the
in-loop fill-down is disabled in the source), and emit the record when amount
or vehicle is non-empty. -/
def extractRow (raw : List (Option String)) : Option RawLedgerRow :=
  let cl := cleanRow raw
  if skipRow cl then none
  else if cl.length < 8 then none
  else
    let amount_raw := selectAmount cl
    let vehicle_raw := cellFromEnd cl 8
    let voucher_raw := (cl[0]?).getD ""
    let date_raw := (cl[1]?).getD ""
    if amount_raw ≠ "" ∨ vehicle_raw ≠ "" then
      some ⟨vehicle_raw, voucher_raw, date_raw, amount_raw⟩
    else none

/-- Whole-document extraction (app.py lines 40-105): the rows of all pages'
tables, in order, filtered and transformed row by row. -/
def extract_data (table : List (List (Option String))) : List RawLedgerRow :=
  table.filterMap extractRow

/-! ## Amount normalization (`clean_amt`, app.py lines 112-119) -/

/-- Strip step `re.sub(r'[^\d\.]', '', str(x))`: keep only digits and dots. -/
def stripToDigitsDots (s : String) : String :=
  String.mk (s.toList.filter (fun ch => ch.isDigit || ch == '.'))

/-- Value of a digit list read in base 10 (empty list reads as 0). -/
def digitsVal (l : List Char) : Nat :=
  l.foldl (fun a ch => 10 * a + (ch.toNat - 48)) 0

/-- Integer part of a digits-and-dots token: the characters before the first
dot. -/
def intPartOf (l : List Char) : List Char :=
  l.takeWhile (fun ch => ch != '.')

/-- Fractional part of a digits-and-dots token: the characters after the
first dot. -/
def fracPartOf (l : List Char) : List Char :=
  (l.dropWhile (fun ch => ch != '.')).drop 1

/-- Acceptance test of Python `float()` on a digits-and-dots string: at least
one digit and at most one dot (`"1."` and `".5"` parse, `""`, `"."` and
`"1.2.3"` raise). -/
def floatAccepts (l : List Char) : Bool :=
  l.all (fun ch => ch.isDigit || ch == '.') && l.any Char.isDigit &&
    decide (l.count '.' ≤ 1)

/-- Python `float()` restricted to the strings `clean_amt` can pass it; the
value is the exact decimal. -/
def parseDigitsDots (l : List Char) : Option ℚ :=
  if floatAccepts l then
    some ((digitsVal (intPartOf l) : ℚ) +
      (digitsVal (fracPartOf l) : ℚ) / (10 : ℚ) ^ (fracPartOf l).length)
  else none

/-- Amount normalization (app.py lines 112-119): empty input yields 0.0,
otherwise strip to digits/dots and parse, with 0.0 on parse failure. -/
def clean_amt (x : String) : ℚ :=
  if x = "" then 0
  else (parseDigitsDots (stripToDigitsDots x).toList).getD 0

/-! ## Date forward-fill and formatting (`clean_dataframe`, app.py lines 123-129) -/

/-- Forward fill `df['Date'].replace('', pd.NA).ffill()` (app.py line 124):
`cur` is the last non-empty date seen so far (`none` when there is none yet);
an empty cell becomes the carried value, a non-empty cell is kept and becomes
the new carried value. -/
def ffillAux (cur : Option String) : List String → List (Option String)
  | [] => []
  | d :: rest =>
    if d = "" then cur :: ffillAux cur rest
    else some d :: ffillAux (some d) rest

/-- Gregorian leap-year test. -/
def isLeap (y : Nat) : Bool :=
  (y % 4 == 0 && y % 100 != 0) || y % 400 == 0

/-- Number of days of month `m` in year `y`. -/
def daysInMonth (y m : Nat) : Nat :=
  if m = 2 then (if isLeap y then 29 else 28)
  else if m = 4 ∨ m = 6 ∨ m = 9 ∨ m = 11 then 30
  else 31

/-- Two-digit-year pivot of `%y`: 00-68 map to 2000-2068, 69-99 to 1969-1999. -/
def parseTwoDigitYear (yy : Nat) : Nat :=
  if yy ≤ 68 then 2000 + yy else 1900 + yy

/-- Python `str.split('.')` on the character list: maximal dot-free groups,
with empty groups kept (so `""` splits to one empty group). -/
def splitOnDot : List Char → List (List Char)
  | [] => [[]]
  | ch :: rest =>
    match splitOnDot rest with
    | [] => [[ch]]
    | g :: gs => if ch = '.' then [] :: g :: gs else (ch :: g) :: gs

/-- Parsing under `pd.to_datetime(_, format='%d.%m.%y', errors='coerce')`
(app.py line 127): the whole string must be day `.` month `.` year, with day
and month 1-2 digits, year exactly 2 digits, day/month nonzero, month at most
12, day within the month's length; failures coerce to `NaT` (`none`).
Result is `(day, month, four-digit year)`. -/
def parseDDMMYY (s : String) : Option (Nat × Nat × Nat) :=
  match splitOnDot s.toList with
  | [dl, ml, yl] =>
    if (1 ≤ dl.length ∧ dl.length ≤ 2 ∧ dl.all Char.isDigit = true) ∧
        (1 ≤ ml.length ∧ ml.length ≤ 2 ∧ ml.all Char.isDigit = true) ∧
        (yl.length = 2 ∧ yl.all Char.isDigit = true) then
      let d := digitsVal dl
      let m := digitsVal ml
      let y := parseTwoDigitYear (digitsVal yl)
      if 1 ≤ d ∧ 1 ≤ m ∧ m ≤ 12 ∧ d ≤ daysInMonth y m then some (d, m, y)
      else none
    else none
  | _ => none

/-- Decimal digits of a number, least significant first; `fuel` bounds the
number of digits produced and any `fuel ≥ n` is exact, since a positive `n`
has at most `n` digits. -/
def natToDigitsRev (fuel : Nat) (n : Nat) : List Char :=
  match fuel with
  | 0 => []
  | fuel + 1 => if n = 0 then [] else Nat.digitChar (n % 10) :: natToDigitsRev fuel (n / 10)

/-- Decimal rendering of a natural number. -/
def natStr (n : Nat) : String :=
  if n = 0 then "0" else String.mk (natToDigitsRev n n).reverse

/-- Zero-padded two-digit rendering (strftime `%d` / `%m`). -/
def pad2 (n : Nat) : String :=
  if n < 10 then "0" ++ natStr n else natStr n

/-- Rendering `strftime('%d/%m/%Y')` (app.py line 129) of a parsed date. -/
def renderDDMMYYYY (d m y : Nat) : String :=
  pad2 d ++ "/" ++ pad2 m ++ "/" ++ natStr y

/-- Date display string of one effective date: parse under `%d.%m.%y`, then
re-render as `%d/%m/%Y`; parse failure gives the null marker (`NaT` whose
`strftime` is missing). -/
def dateDisplay (s : String) : Option String :=
  (parseDDMMYY s).map (fun t => renderDDMMYYYY t.1 t.2.1 t.2.2)

/-! ## The cleaned dataframe (`clean_dataframe`, app.py lines 107-132) -/

/-- One row of the cleaned dataframe: the `Date` display string (`none` for a
null/NaT date), the `Date_Obj` parsed date, and the normalized amount. -/
structure CleanRow where
  vehicleNo : String
  voucherNo : String
  date : Option String
  dateObj : Option (Nat × Nat × Nat)
  amountRs : ℚ
  deriving DecidableEq, Repr

/-- Column-wise transforms of app.py lines 121-129 applied to one raw row
given its forward-filled effective date (`none` when the fill left `NA`). -/
def mkClean (r : RawLedgerRow) (eff : Option String) : CleanRow :=
  { vehicleNo := r.vehicleNo
    voucherNo := r.voucherNo
    date := eff.bind dateDisplay
    dateObj := eff.bind parseDDMMYY
    amountRs := clean_amt r.amountRs }

/-- Effective (forward-filled) dates of the extracted rows (app.py line 124). -/
def effectiveDates (data : List RawLedgerRow) : List (Option String) :=
  ffillAux none (data.map (fun r => r.date))

/-- Positional recombination of the raw rows with their effective dates. -/
def buildClean : List RawLedgerRow → List (Option String) → List CleanRow
  | r :: rs, e :: es => mkClean r e :: buildClean rs es
  | _, _ => []

/-- The cleaned dataframe before the final amount filter. -/
def cleanRows (data : List RawLedgerRow) : List CleanRow :=
  buildClean data (effectiveDates data)

/-- Full `clean_dataframe` (app.py lines 107-132): column transforms followed
by the strictly-positive-amount filter `df[df['Amount (Rs)'] > 0]`. -/
def clean_dataframe (data : List RawLedgerRow) : List CleanRow :=
  (cleanRows data).filter (fun r => decide (0 < r.amountRs))

/-- End-to-end pipeline of the Upload tab: extraction then cleaning. -/
def pipeline (table : List (List (Option String))) : List CleanRow :=
  clean_dataframe (extract_data table)

/-! ## Firestore document key (`save_to_firestore`, app.py lines 140-152) -/

/-- Python `str.replace('/', '')`: drop every slash. -/
def removeSlashes (s : String) : String :=
  String.mk (s.toList.filter (fun ch => ch != '/'))

/-- Key part `str(row['Date']).replace('/', '')` (app.py line 143): a null
date is the float `nan` in the dataframe, whose `str` is `"nan"`. -/
def dateKeyPart : Option String → String
  | none => "nan"
  | some s => removeSlashes s

/-- Python `int()` on a float: truncation toward zero. -/
def truncInt (q : ℚ) : Int :=
  if 0 ≤ q then q.floor else -((-q).floor)

/-- Decimal rendering of an integer. -/
def intStr (i : Int) : String :=
  if i < 0 then "-" ++ natStr i.natAbs else natStr i.natAbs

/-- Document id `f"{row['Voucher No']}_{safe_date}_{safe_amt}"`
(app.py lines 143-145). -/
def docId (r : CleanRow) : String :=
  r.voucherNo ++ "_" ++ dateKeyPart r.date ++ "_" ++ intStr (truncInt r.amountRs)

/-! ## Spec-side definitions

The following definitions transcribe the wording of the specification (not
the source); they exist to be compared against the source-derived functions
above. -/

/-- Monetary-token shape claimed by the spec (section 4.2): an optional
leading minus sign, one or more digit/grouping-separator characters, and an
optional decimal point followed by zero to two digits. -/
def monetaryShape (s : String) : Bool :=
  let l := if s.toList.head? = some '-' then s.toList.drop 1 else s.toList
  let core := l.takeWhile (fun ch => ch.isDigit || ch == ',')
  let rest := l.dropWhile (fun ch => ch.isDigit || ch == ',')
  decide (1 ≤ core.length) &&
    (rest.isEmpty ||
      (rest.head? == some '.' && decide ((rest.drop 1).length ≤ 2) &&
        (rest.drop 1).all Char.isDigit))

/-- Amount validation claimed by the spec: monetary shape and length at
least 2. -/
def specAmountCheck (s : String) : Bool :=
  monetaryShape s && decide (2 ≤ s.length)

/-- Amount selection as the spec describes it: offset -4 under
`specAmountCheck`, falling back to -5 (when the row has at least 5 trailing
columns) then -3 under the same check, else the unvalidated -4 value. -/
def selectAmountSpec (row : List String) : String :=
  let a4 := cellFromEnd row 4
  if specAmountCheck a4 then a4
  else if 5 ≤ row.length ∧ specAmountCheck (cellFromEnd row 5) = true then
    cellFromEnd row 5
  else if specAmountCheck (cellFromEnd row 3) then
    cellFromEnd row 3
  else a4

/-- Date-token shape `DD.MM.YY` named by the spec (sections 4.2-4.3): two
digits, a dot, two digits, a dot, two digits. -/
def dateTokenShape (s : String) : Bool :=
  match s.toList with
  | [a, b, p, d, e, q, g, h] =>
    a.isDigit && b.isDigit && p == '.' && d.isDigit && e.isDigit && q == '.' &&
      g.isDigit && h.isDigit
  | _ => false

/-- Effective dates as the spec's section 4.3 describes them: a tracked
current date, updated by a shape-matching date cell, else by a shape-matching
voucher cell; rows with an invalid date cell receive the tracked value
(empty when unset). -/
def specFillAux (cur : Option String) : List RawLedgerRow → List String
  | [] => []
  | r :: rest =>
    if dateTokenShape r.date then r.date :: specFillAux (some r.date) rest
    else if dateTokenShape r.voucherNo then
      r.voucherNo :: specFillAux (some r.voucherNo) rest
    else (cur.getD "") :: specFillAux cur rest

/-- Spec-claimed effective dates of a whole extraction pass. -/
def specEffectiveDates (data : List RawLedgerRow) : List String :=
  specFillAux none data

/-- Effective dates the code actually produces, with the never-filled `NA`
marker read back as the empty string (the spec's "unset/empty" value). -/
def codeEffectiveDates (data : List RawLedgerRow) : List String :=
  (effectiveDates data).map (fun o => o.getD "")

/-- Last non-empty element of a list of strings, if any: the value a
forward-fill carries into the position right after the list. -/
def lastNonEmpty : List String → Option String
  | [] => none
  | d :: rest =>
    match lastNonEmpty rest with
    | some x => some x
    | none => if d = "" then none else some d

/-! ## General lemmas about the embedded functions -/

lemma parseDigitsDots_eq_some (l : List Char) (hc : floatAccepts l = true) :
    parseDigitsDots l = some ((digitsVal (intPartOf l) : ℚ) +
      (digitsVal (fracPartOf l) : ℚ) / (10 : ℚ) ^ (fracPartOf l).length) := by
  rw [parseDigitsDots, if_pos hc]

lemma parseDigitsDots_nonneg (l : List Char) (q : ℚ)
    (h : parseDigitsDots l = some q) : 0 ≤ q := by
  rw [parseDigitsDots] at h
  split at h
  · rw [Option.some.injEq] at h
    subst h
    positivity
  · exact Option.noConfusion h

lemma clean_amt_eval (x : String) (hx : ¬(x = ""))
    (hc : floatAccepts (stripToDigitsDots x).toList = true) :
    clean_amt x = (digitsVal (intPartOf (stripToDigitsDots x).toList) : ℚ) +
      (digitsVal (fracPartOf (stripToDigitsDots x).toList) : ℚ) /
        (10 : ℚ) ^ (fracPartOf (stripToDigitsDots x).toList).length := by
  rw [clean_amt, if_neg hx, parseDigitsDots_eq_some _ hc, Option.getD_some]

lemma clean_amt_100 : clean_amt "100" = 100 := by
  rw [clean_amt_eval "100" (by decide) (by decide)]
  rw [show digitsVal (intPartOf (stripToDigitsDots "100").toList) = 100 from by decide,
    show fracPartOf (stripToDigitsDots "100").toList = [] from by decide]
  norm_num [digitsVal]

lemma clean_amt_nonneg (x : String) : 0 ≤ clean_amt x := by
  by_cases hx : x = ""
  · simp [clean_amt, hx]
  · rw [clean_amt, if_neg hx]
    cases hp : parseDigitsDots (stripToDigitsDots x).toList with
    | none => simp
    | some q => simpa using parseDigitsDots_nonneg _ q hp

lemma clean_amt_multidot (x : String)
    (h : 2 ≤ (stripToDigitsDots x).toList.count '.') : clean_amt x = 0 := by
  by_cases hx : x = ""
  · simp [clean_amt, hx]
  · have hacc : floatAccepts (stripToDigitsDots x).toList = false := by
      have h2 : decide ((stripToDigitsDots x).toList.count '.' ≤ 1) = false :=
        decide_eq_false (by omega)
      simp only [floatAccepts, h2, Bool.and_false]
    rw [clean_amt, if_neg hx,
      parseDigitsDots, if_neg (by rw [hacc]; exact Bool.false_ne_true)]
    rfl

lemma buildClean_amount (rs : List RawLedgerRow) (es : List (Option String)) :
    ∀ (i : Nat) (h1 : i < rs.length) (h2 : i < (buildClean rs es).length),
    ((buildClean rs es).get ⟨i, h2⟩).amountRs = clean_amt ((rs.get ⟨i, h1⟩).amountRs) := by
  induction rs generalizing es with
  | nil => intro i h1 _; simp at h1
  | cons r rs ih =>
    intro i h1 h2
    cases es with
    | nil => simp [buildClean] at h2
    | cons e es =>
      cases i with
      | zero => rfl
      | succ j => exact ih es j (by simpa using h1) (by simpa [buildClean] using h2)

/-- First-defined alternative of two optional values. -/
def optOr (a b : Option String) : Option String :=
  match a with
  | some x => some x
  | none => b

lemma optOr_none (a : Option String) : optOr a none = a := by
  cases a <;> rfl

lemma optOr_lastNonEmpty_cons (d : String) (l : List String) (cur : Option String) :
    optOr (lastNonEmpty (d :: l)) cur =
      optOr (lastNonEmpty l) (if d = "" then cur else some d) := by
  cases hl : lastNonEmpty l with
  | some x => simp [lastNonEmpty, hl, optOr]
  | none => by_cases hd : d = "" <;> simp [lastNonEmpty, hl, optOr, hd]

lemma ffillAux_getElem (l : List String) :
    ∀ (cur : Option String) (i : Nat) (h : i < l.length),
    (ffillAux cur l)[i]? =
      some (if l[i] = "" then optOr (lastNonEmpty (l.take i)) cur else some l[i]) := by
  induction l with
  | nil => intro cur i h; simp at h
  | cons d rest ih =>
    intro cur i h
    cases i with
    | zero =>
      by_cases hd : d = "" <;>
        simp [ffillAux, hd, optOr, lastNonEmpty]
    | succ j =>
      have hj : j < rest.length := by simpa using h
      have hshift : optOr (lastNonEmpty ((d :: rest).take (j + 1))) cur =
          optOr (lastNonEmpty (rest.take j)) (if d = "" then cur else some d) := by
        rw [List.take_succ_cons, optOr_lastNonEmpty_cons]
      by_cases hd : d = ""
      · rw [ffillAux, if_pos hd, List.getElem?_cons_succ, ih cur j hj,
          List.getElem_cons_succ, hshift, if_pos hd]
      · rw [ffillAux, if_neg hd, List.getElem?_cons_succ, ih (some d) j hj,
          List.getElem_cons_succ, hshift, if_neg hd]

/-! ## Claim theorems -/

/-- C5: amount normalization is a total function (it is a Lean `def`, hence
never raises): it keeps only digit/dot characters and parses the remainder,
returns exactly 0 on empty input or parse failure, returns the parsed decimal
otherwise, and its result is always non-negative. -/
theorem clean_amt_total_contract (x : String) :
    0 ≤ clean_amt x ∧
    (x = "" → clean_amt x = 0) ∧
    (parseDigitsDots (stripToDigitsDots x).toList = none → clean_amt x = 0) ∧
    (∀ q, x ≠ "" → parseDigitsDots (stripToDigitsDots x).toList = some q →
      clean_amt x = q) := by
  refine ⟨clean_amt_nonneg x, fun hx => by simp [clean_amt, hx], fun hp => ?_,
    fun q hx hp => ?_⟩
  · by_cases hx : x = ""
    · simp [clean_amt, hx]
    · rw [clean_amt, if_neg hx, hp]
      rfl
  · rw [clean_amt, if_neg hx, hp, Option.getD_some]

/-- Witness for C5 at concrete noisy inputs: the empty string and `"N/A"`
normalize to exactly 0, and an arbitrary noisy token has a non-negative
result. -/
theorem clean_amt_total_contract_witness :
    clean_amt "" = 0 ∧ clean_amt "N/A" = 0 ∧ 0 ≤ clean_amt "x7y" :=
  ⟨(clean_amt_total_contract "").2.1 rfl,
    (clean_amt_total_contract "N/A").2.2.1 (by decide),
    (clean_amt_total_contract "x7y").1⟩

/-- C6: every row of the final result set has a strictly positive normalized
amount (`df[df['Amount (Rs)'] > 0]` is the last step of `clean_dataframe`). -/
theorem final_amounts_strictly_positive (data : List RawLedgerRow) (r : CleanRow)
    (h : r ∈ clean_dataframe data) : 0 < r.amountRs := by
  unfold clean_dataframe at h
  exact of_decide_eq_true (List.mem_filter.mp h).2

/-- Witness for C6: a concrete retained row with amount token `"100"`. -/
theorem final_amounts_strictly_positive_witness :
    0 < (mkClean ⟨"TRK-99", "V001", "01.01.24", "100"⟩ (some "01.01.24")).amountRs :=
  final_amounts_strictly_positive [⟨"TRK-99", "V001", "01.01.24", "100"⟩] _ (by
    have hpos : (0 : ℚ) <
        (mkClean ⟨"TRK-99", "V001", "01.01.24", "100"⟩ (some "01.01.24")).amountRs := by
      show (0 : ℚ) < clean_amt "100"
      rw [clean_amt_100]
      norm_num
    have hcd : clean_dataframe [⟨"TRK-99", "V001", "01.01.24", "100"⟩] =
        List.filter (fun r => decide (0 < r.amountRs))
          [mkClean ⟨"TRK-99", "V001", "01.01.24", "100"⟩ (some "01.01.24")] := rfl
    rw [hcd]
    exact List.mem_filter.mpr ⟨List.mem_singleton_self _, decide_eq_true hpos⟩)

/-- C7: a raw table row is discarded before extraction whenever all its
cleaned cells are empty, or some cell contains the summary marker `"Total"`,
or the cleaned row has fewer than 8 columns: the extractor emits nothing. -/
theorem junk_rows_discarded (raw : List (Option String))
    (h : (cleanRow raw).all (fun s => s == "") = true ∨
      (cleanRow raw).any (fun s => decide ("Total".toList <:+: s.toList)) = true ∨
      (cleanRow raw).length < 8) :
    extractRow raw = none := by
  rcases h with h | h | h
  · have hs : skipRow (cleanRow raw) = true := by
      simp only [skipRow, h, Bool.true_or]
    simp [extractRow, hs]
  · have hs : skipRow (cleanRow raw) = true := by
      simp only [skipRow, h, Bool.or_true]
    simp [extractRow, hs]
  · by_cases hs : skipRow (cleanRow raw) <;> simp [extractRow, hs, h]

/-- Witness for C7 at concrete rows: a 2-column row, an all-blank row and a
summary row are all discarded. -/
theorem junk_rows_discarded_witness :
    extractRow [some "1", some "2"] = none ∧
    extractRow [some "", none, some "  "] = none ∧
    extractRow [some "x", some "Total due", some "a", some "b", some "e",
      some "f", some "g", some "h"] = none :=
  ⟨junk_rows_discarded _ (Or.inr (Or.inr (by decide))),
    junk_rows_discarded _ (Or.inl (by decide)),
    junk_rows_discarded _ (Or.inr (Or.inl (by decide)))⟩

/-- C10: an amount token whose digit-and-dot residue carries two or more dots
(such as a stray date token) normalizes to exactly 0 even though it contains
digits, and the corresponding position of the pre-filter cleaned table carries
amount 0 — so the strictly-positive filter of C6 excludes that row. -/
theorem multidot_amount_zero :
    (∀ x : String, 2 ≤ (stripToDigitsDots x).toList.count '.' → clean_amt x = 0) ∧
    (∀ (data : List RawLedgerRow) (i : Nat) (h1 : i < data.length)
      (h2 : i < (cleanRows data).length),
      2 ≤ (stripToDigitsDots ((data.get ⟨i, h1⟩).amountRs)).toList.count '.' →
      ((cleanRows data).get ⟨i, h2⟩).amountRs = 0) :=
  ⟨fun x h => clean_amt_multidot x h,
    fun data i h1 h2 h =>
      (buildClean_amount data (effectiveDates data) i h1 h2).trans
        (clean_amt_multidot _ h)⟩

/-- Witness for C10: the stray date token `"01.01.24"` (which contains
digits) normalizes to 0. -/
theorem multidot_amount_zero_witness : clean_amt "01.01.24" = 0 :=
  multidot_amount_zero.1 "01.01.24" (by decide)

/-- C4: in the forward-fill of `clean_dataframe`, a row whose date is the
empty string receives the nearest preceding non-empty date (unset when no
earlier row has one), a row with a non-empty date keeps it, and in the
concrete shape where only rows 1 and 4 carry dates, rows 2-3 inherit row 1's
date and rows 5-6 inherit row 4's. -/
theorem date_forward_fill :
    (∀ (data : List RawLedgerRow) (i : Nat) (h : i < data.length),
      (data[i]).date = "" →
      (effectiveDates data)[i]? =
        some (lastNonEmpty ((data.map (fun r => r.date)).take i))) ∧
    (∀ (data : List RawLedgerRow) (i : Nat) (h : i < data.length),
      (data[i]).date ≠ "" →
      (effectiveDates data)[i]? = some (some (data[i]).date)) ∧
    (∀ d1 d4 : String, d1 ≠ "" → d4 ≠ "" →
      ffillAux none [d1, "", "", d4, "", ""] =
        [some d1, some d1, some d1, some d4, some d4, some d4]) := by
  refine ⟨fun data i h hdate => ?_, fun data i h hdate => ?_, fun d1 d4 h1 h4 => ?_⟩
  · have hl : i < (data.map (fun r => r.date)).length := by simpa using h
    rw [effectiveDates, ffillAux_getElem _ none i hl]
    simp only [List.getElem_map]
    rw [if_pos hdate, optOr_none]
  · have hl : i < (data.map (fun r => r.date)).length := by simpa using h
    rw [effectiveDates, ffillAux_getElem _ none i hl]
    simp only [List.getElem_map]
    rw [if_neg hdate]
  · simp [ffillAux, h1, h4]

/-- Witness for C4 at the concrete row-1/row-4 date pattern. -/
theorem date_forward_fill_witness :
    ffillAux none ["01.01.24", "", "", "02.02.24", "", ""] =
      [some "01.01.24", some "01.01.24", some "01.01.24",
        some "02.02.24", some "02.02.24", some "02.02.24"] :=
  date_forward_fill.2.2 "01.01.24" "02.02.24" (by decide) (by decide)

/-- C8: the effective date string is parsed under `%d.%m.%y`; on failure the
row's date becomes the null marker, on success it is re-rendered as
`%d/%m/%Y`; in particular `"05.03.24"` re-renders as exactly `"05/03/2024"`. -/
theorem date_parse_render (s : String) :
    (parseDDMMYY s = none → dateDisplay s = none) ∧
    (∀ d m y, parseDDMMYY s = some (d, m, y) →
      dateDisplay s = some (renderDDMMYYYY d m y)) ∧
    dateDisplay "05.03.24" = some "05/03/2024" := by
  refine ⟨fun h => by simp [dateDisplay, h], fun d m y h => by simp [dateDisplay, h], ?_⟩
  decide

/-- Witness for C8: the round-trip at `"05.03.24"` and a parse failure at a
non-date token. -/
theorem date_parse_render_witness :
    dateDisplay "05.03.24" = some (renderDDMMYYYY 5 3 2024) ∧ dateDisplay "xx" = none :=
  ⟨(date_parse_render "05.03.24").2.1 5 3 2024 (by decide),
    (date_parse_render "xx").1 (by decide)⟩

/-- Second row used against C2: its date cell is invalid non-empty text while
its voucher cell is a valid date token. -/
def c2data : List RawLedgerRow :=
  [⟨"TRK1", "V1", "01.01.24", "100"⟩, ⟨"TRK2", "02.02.24", "xx", "100"⟩]

/-- Counterexample to C2: the code never consults the voucher column and
keeps an invalid non-empty date cell verbatim, so the effective dates differ
from the ones the claimed tracked-current-date rule produces. -/
theorem fill_down_spec_counterexample :
    codeEffectiveDates c2data = ["01.01.24", "xx"] ∧
    specEffectiveDates c2data = ["01.01.24", "02.02.24"] ∧
    codeEffectiveDates c2data ≠ specEffectiveDates c2data := by
  decide

/-- C2 as amended: the extractor takes the date cell verbatim as the row's
date; downstream, a row keeps a non-empty date cell unchanged (even when it
is not a valid date token) and only a row whose date cell is empty inherits
the nearest preceding non-empty date; no voucher-column fallback exists. -/
theorem fill_down_empty_only :
    (∀ (raw : List (Option String)) (r : RawLedgerRow), extractRow raw = some r →
      r.date = ((cleanRow raw)[1]?).getD "") ∧
    (∀ (data : List RawLedgerRow) (i : Nat) (h : i < data.length),
      (data[i]).date ≠ "" →
      (codeEffectiveDates data)[i]? = some (data[i]).date) ∧
    (∀ (data : List RawLedgerRow) (i : Nat) (h : i < data.length),
      (data[i]).date = "" →
      (codeEffectiveDates data)[i]? =
        some ((lastNonEmpty ((data.map (fun r => r.date)).take i)).getD "")) := by
  refine ⟨fun raw r h => ?_, fun data i h hdate => ?_, fun data i h hdate => ?_⟩
  · simp only [extractRow] at h
    split at h
    · exact Option.noConfusion h
    · split at h
      · exact Option.noConfusion h
      · split at h
        · rw [Option.some.injEq] at h
          subst h
          rfl
        · exact Option.noConfusion h
  · have hl : i < (data.map (fun r => r.date)).length := by simpa using h
    rw [codeEffectiveDates, List.getElem?_map, effectiveDates,
      ffillAux_getElem _ none i hl]
    simp only [List.getElem_map]
    rw [if_neg hdate]
    rfl
  · have hl : i < (data.map (fun r => r.date)).length := by simpa using h
    rw [codeEffectiveDates, List.getElem?_map, effectiveDates,
      ffillAux_getElem _ none i hl]
    simp only [List.getElem_map]
    rw [if_pos hdate, optOr_none]
    rfl

/-- Witness for C2's amended statement: a non-empty invalid date cell is kept
verbatim, and an empty one inherits the preceding date. -/
theorem fill_down_empty_only_witness :
    (codeEffectiveDates c2data)[1]? = some "xx" ∧
    (codeEffectiveDates [⟨"A", "B", "01.01.24", "1"⟩, ⟨"A", "B", "", "1"⟩])[1]? =
      some "01.01.24" := by
  constructor
  · exact fill_down_empty_only.2.1 c2data 1 (by decide) (by decide)
  · have h := fill_down_empty_only.2.2
      [⟨"A", "B", "01.01.24", "1"⟩, ⟨"A", "B", "", "1"⟩] 1 (by decide) (by decide)
    rw [show lastNonEmpty (List.take 1 (List.map (fun r => r.date)
      [(⟨"A", "B", "01.01.24", "1"⟩ : RawLedgerRow), ⟨"A", "B", "", "1"⟩])) =
        some "01.01.24" from by decide] at h
    exact h

/-- Row used against C1: the offset -4 cell is the single digit `"5"` (which
fails the spec's minimum-length-2 validation but contains a digit), while the
offset -3 cell `"100"` passes the spec's validation. -/
def c1row : List String := ["a", "b", "c", "x", "5", "100", "q", "r"]

/-- Counterexample to C1: on `c1row` the code keeps the offset -4 candidate
`"5"` (its check is only "contains a digit"), while the claimed
monetary-shape-and-length validation would reject it and fall back to
`"100"`. -/
theorem amount_validation_counterexample :
    8 ≤ c1row.length ∧
    selectAmount c1row = "5" ∧
    selectAmountSpec c1row = "100" ∧
    selectAmount c1row ≠ selectAmountSpec c1row := by
  decide

/-- C1 as amended: the acceptance check on the amount candidates is only
"contains at least one digit character" (no monetary shape, no minimum
length); subject to that check the fallback order is offset -4, then -5
(always applicable since the row has at least 8 cells), then -3, and the
unvalidated -4 value is kept when all three fail. -/
theorem amount_fallback_digit_check (row : List String) (h : 8 ≤ row.length) :
    (hasDigitChar (cellFromEnd row 4) = true →
      selectAmount row = cellFromEnd row 4) ∧
    (hasDigitChar (cellFromEnd row 4) = false →
      hasDigitChar (cellFromEnd row 5) = true →
      selectAmount row = cellFromEnd row 5) ∧
    (hasDigitChar (cellFromEnd row 4) = false →
      hasDigitChar (cellFromEnd row 5) = false →
      hasDigitChar (cellFromEnd row 3) = true →
      selectAmount row = cellFromEnd row 3) ∧
    (hasDigitChar (cellFromEnd row 4) = false →
      hasDigitChar (cellFromEnd row 5) = false →
      hasDigitChar (cellFromEnd row 3) = false →
      selectAmount row = cellFromEnd row 4) := by
  have h5 : 5 ≤ row.length := by omega
  refine ⟨fun h4 => ?_, fun h4 hd5 => ?_, fun h4 hd5 hd3 => ?_,
    fun h4 hd5 hd3 => ?_⟩
  · simp only [selectAmount]
    rw [if_pos h4]
  · simp only [selectAmount]
    rw [if_neg (by simp [h4]), if_pos ⟨h5, hd5⟩]
  · simp only [selectAmount]
    rw [if_neg (by simp [h4]), if_neg (by simp [hd5]), if_pos hd3]
  · simp only [selectAmount]
    rw [if_neg (by simp [h4]), if_neg (by simp [hd5]), if_neg (by simp [hd3])]

/-- Witness for C1's amended statement: on `c1row` the digit-bearing offset
-4 candidate is kept. -/
theorem amount_fallback_digit_check_witness :
    selectAmount c1row = cellFromEnd c1row 4 :=
  (amount_fallback_digit_check c1row (by decide)).1 (by decide)

/-! ## Helpers for concrete membership in the final result set -/

lemma clean_amt_100_pos : (0 : ℚ) < clean_amt "100" := by
  rw [clean_amt_100]
  norm_num

lemma clean_dataframe_singleton (r0 : RawLedgerRow) (e : Option String)
    (he : effectiveDates [r0] = [e]) (hpos : 0 < (mkClean r0 e).amountRs) :
    clean_dataframe [r0] = [mkClean r0 e] := by
  rw [clean_dataframe,
    show cleanRows [r0] = [mkClean r0 e] from by rw [cleanRows, he]; rfl]
  simp [List.filter, decide_eq_true hpos]

/-- Sample raw row with a valid date and amount token `"100"`. -/
def exRowValid : RawLedgerRow := ⟨"TRK-99", "V001", "01.01.24", "100"⟩

/-- Sample raw row with an empty date cell and amount token `"100"`. -/
def exRowBlank : RawLedgerRow := ⟨"V1", "V1", "", "100"⟩

lemma mem_clean_dataframe_valid :
    mkClean exRowValid (some "01.01.24") ∈ clean_dataframe [exRowValid] := by
  rw [clean_dataframe_singleton exRowValid (some "01.01.24") rfl clean_amt_100_pos]
  exact List.mem_singleton_self _

lemma mem_clean_dataframe_blank :
    mkClean exRowBlank none ∈ clean_dataframe [exRowBlank] := by
  rw [clean_dataframe_singleton exRowBlank none rfl clean_amt_100_pos]
  exact List.mem_singleton_self _

lemma exists_mkClean_of_mem_buildClean :
    ∀ (rs : List RawLedgerRow) (es : List (Option String)) (r : CleanRow),
    r ∈ buildClean rs es → ∃ a b, r = mkClean a b := by
  intro rs
  induction rs with
  | nil => intro es r h; simp [buildClean] at h
  | cons a rs ih =>
    intro es r h
    cases es with
    | nil =>
      rw [show buildClean (a :: rs) [] = ([] : List CleanRow) from rfl] at h
      simp at h
    | cons e es =>
      rcases List.mem_cons.mp h with h | h
      · exact ⟨a, e, h⟩
      · exact ih es r h

/-- Table with one 8-column row whose date cell is empty, used against C3. -/
def c3table : List (List (Option String)) :=
  [[some "V1", some "", some "TRK", some "x", some "100", some "a", some "b",
    some "q"]]

/-- Counterexample to C3: running the full pipeline on `c3table` retains one
row (its amount 100 is positive) whose date is the null marker, because no
row ever supplied a date the fill-down could inherit — so a final result set
can contain a blank date. -/
theorem blank_date_counterexample :
    (pipeline c3table).any (fun r => r.date.isNone) = true ∧
    (pipeline c3table).length = 1 := by
  have hex : extract_data c3table = [exRowBlank] := by decide
  rw [pipeline, hex, clean_dataframe_singleton exRowBlank none rfl clean_amt_100_pos]
  exact ⟨rfl, rfl⟩

/-- C3 as amended: in the final result set a row's date is the null marker
exactly when its forward-filled effective date is missing or fails to parse
under `%d.%m.%y`; when it parses, the date is its `%d/%m/%Y` rendering, hence
non-blank. -/
theorem retained_date_null_iff (data : List RawLedgerRow) (r : CleanRow)
    (h : r ∈ clean_dataframe data) :
    (r.date = none ↔ r.dateObj = none) ∧
    (∀ d m y, r.dateObj = some (d, m, y) →
      r.date = some (renderDDMMYYYY d m y)) := by
  unfold clean_dataframe at h
  obtain ⟨a, b, rfl⟩ :=
    exists_mkClean_of_mem_buildClean data (effectiveDates data) r
      (List.mem_of_mem_filter h)
  cases b with
  | none => simp [mkClean]
  | some s =>
    cases hp : parseDDMMYY s with
    | none => simp [mkClean, dateDisplay, hp]
    | some t =>
      obtain ⟨d, m, y⟩ := t
      constructor
      · simp [mkClean, dateDisplay, hp]
      · intro d' m' y' h'
        simp only [mkClean, Option.some_bind, hp, Option.some.injEq] at h'
        cases h'
        simp [mkClean, dateDisplay, hp]

/-- Witness for C3's amended statement at a concrete retained row with a
valid date. -/
theorem retained_date_null_iff_witness :
    ((mkClean exRowValid (some "01.01.24")).date = none ↔
      (mkClean exRowValid (some "01.01.24")).dateObj = none) ∧
    (∀ d m y, (mkClean exRowValid (some "01.01.24")).dateObj = some (d, m, y) →
      (mkClean exRowValid (some "01.01.24")).date = some (renderDDMMYYYY d m y)) :=
  retained_date_null_iff [exRowValid] _ mem_clean_dataframe_valid

/-! ## Digit-character lemmas for the document key -/

lemma digitChar_isDigit (m : Nat) (h : m < 10) : (Nat.digitChar m).isDigit = true := by
  interval_cases m <;> decide

lemma natToDigitsRev_digits (fuel : Nat) :
    ∀ (n : Nat), ∀ ch ∈ natToDigitsRev fuel n, ch.isDigit = true := by
  induction fuel with
  | zero => intro n ch h; simp [natToDigitsRev] at h
  | succ f ih =>
    intro n ch h
    rw [natToDigitsRev] at h
    by_cases hn : n = 0
    · rw [if_pos hn] at h
      simp at h
    · rw [if_neg hn] at h
      rcases List.mem_cons.mp h with h | h
      · subst h
        exact digitChar_isDigit _ (Nat.mod_lt _ (by norm_num))
      · exact ih _ ch h

lemma natStr_digits (n : Nat) : ∀ ch ∈ (natStr n).toList, ch.isDigit = true := by
  rw [natStr]
  by_cases hn : n = 0
  · rw [if_pos hn]
    intro ch h
    have : ch = '0' := by simpa using h
    subst this
    decide
  · rw [if_neg hn]
    intro ch h
    exact natToDigitsRev_digits n n ch (List.mem_reverse.mp h)

lemma pad2_digits (n : Nat) : ∀ ch ∈ (pad2 n).toList, ch.isDigit = true := by
  rw [pad2]
  split
  · intro ch h
    rw [show ("0" ++ natStr n).toList = '0' :: (natStr n).toList from
      String.data_append "0" (natStr n)] at h
    rcases List.mem_cons.mp h with h | h
    · subst h; decide
    · exact natStr_digits n ch h
  · exact natStr_digits n

lemma renderDDMMYYYY_digit_or_slash (d m y : Nat) :
    ∀ ch ∈ (renderDDMMYYYY d m y).toList, ch.isDigit = true ∨ ch = '/' := by
  intro ch h
  rw [renderDDMMYYYY] at h
  simp only [String.toList] at h
  rw [show (pad2 d ++ "/" ++ pad2 m ++ "/" ++ natStr y).data =
      (pad2 d).data ++ '/' :: ((pad2 m).data ++ '/' :: (natStr y).data) from by
    simp [String.data_append, String.append_assoc]] at h
  rcases List.mem_append.mp h with h | h
  · exact Or.inl (pad2_digits d ch h)
  · rcases List.mem_cons.mp h with h | h
    · exact Or.inr h
    · rcases List.mem_append.mp h with h | h
      · exact Or.inl (pad2_digits m ch h)
      · rcases List.mem_cons.mp h with h | h
        · exact Or.inr h
        · exact Or.inl (natStr_digits y ch h)

lemma removeSlashes_all_digits (s : String)
    (h : ∀ ch ∈ s.toList, ch.isDigit = true ∨ ch = '/') :
    (removeSlashes s).toList.all Char.isDigit = true := by
  rw [removeSlashes, List.all_eq_true]
  intro ch hch
  have h1 := List.mem_of_mem_filter hch
  have h2 := List.of_mem_filter hch
  rcases h ch h1 with hd | hs
  · exact hd
  · subst hs
    simp at h2

/-- Counterexample to C9: the full pipeline can retain a row with a positive
amount but a null date (see C3), and such a row is persisted under a document
key whose date component is the literal `"nan"` — not a digits-only rendering
of a date. -/
theorem docid_digits_counterexample :
    mkClean exRowBlank none ∈ clean_dataframe [exRowBlank] ∧
    dateKeyPart (mkClean exRowBlank none).date = "nan" ∧
    ((dateKeyPart (mkClean exRowBlank none).date).toList.all Char.isDigit) = false :=
  ⟨mem_clean_dataframe_blank, rfl, by decide⟩

/-- C9 as amended: each persisted row's document key is the deterministic
composite `voucher_no ++ "_" ++ slash-free date ++ "_" ++ truncated amount`
(a pure function of the row, so re-extracting and re-saving the same document
writes the same ids and upserting creates no duplicates); whenever the row's
date is non-null the date component is digits-only, while a null date renders
as the literal `"nan"`. -/
theorem docId_composite (data : List RawLedgerRow) (r : CleanRow)
    (h : r ∈ clean_dataframe data) :
    docId r = r.voucherNo ++ "_" ++ dateKeyPart r.date ++ "_" ++
      intStr (truncInt r.amountRs) ∧
    (∀ s, r.date = some s →
      (dateKeyPart r.date).toList.all Char.isDigit = true) := by
  refine ⟨rfl, fun s hs => ?_⟩
  unfold clean_dataframe at h
  obtain ⟨a, b, rfl⟩ :=
    exists_mkClean_of_mem_buildClean data (effectiveDates data) r
      (List.mem_of_mem_filter h)
  cases b with
  | none => simp [mkClean] at hs
  | some s0 =>
    cases hp : parseDDMMYY s0 with
    | none => simp [mkClean, dateDisplay, hp] at hs
    | some t =>
      obtain ⟨d, m, y⟩ := t
      have hdate : (mkClean a (some s0)).date = some (renderDDMMYYYY d m y) := by
        simp [mkClean, dateDisplay, hp]
      rw [hdate] at hs ⊢
      rw [Option.some.injEq] at hs
      subst hs
      exact removeSlashes_all_digits _ (renderDDMMYYYY_digit_or_slash d m y)

/-- Witness for C9's amended statement: the key of a concrete retained row
with a valid date, whose date component `"01012024"` is digits-only. -/
theorem docId_composite_witness :
    docId (mkClean exRowValid (some "01.01.24")) =
      (mkClean exRowValid (some "01.01.24")).voucherNo ++ "_" ++
        dateKeyPart (mkClean exRowValid (some "01.01.24")).date ++ "_" ++
        intStr (truncInt (mkClean exRowValid (some "01.01.24")).amountRs) ∧
    (dateKeyPart (mkClean exRowValid (some "01.01.24")).date).toList.all
      Char.isDigit = true :=
  ⟨(docId_composite [exRowValid] _ mem_clean_dataframe_valid).1,
    (docId_composite [exRowValid] _ mem_clean_dataframe_valid).2 "01/01/2024"
      (by decide)⟩

end ArcApp


